import Mathlib

/-
Verification of the query/request translation layer of the ra-data-provider
repository: a shallow embedding of the query builder, the response
interpreter and the operation dispatchers, with theorems settling the
frozen claims about them.

JavaScript objects with string keys are modelled as association lists in
insertion order; JavaScript undefined is modelled with Option; thrown
exceptions are modelled with Except.
-/

set_option autoImplicit false

namespace RaDataProvider

/-- An identifier is a string or a number. -/
inductive Ident where
  | str (s : String)
  | num (n : Int)
deriving DecidableEq

/-- Template-literal rendering of an identifier, as in equals interpolation. -/
def Ident.toStr : Ident → String
  | .str s => s
  | .num n => toString n

/-- An element of a bulk id list: either a bare identifier or an object
exposing an id field, as accepted by getMany. -/
inductive IdOrObj where
  | bare (i : Ident)
  | obj (i : Ident)
deriving DecidableEq

/-- The isIdObject type guard from the source: true exactly when the item is
an object carrying an id field. -/
def isIdObject : IdOrObj → Bool
  | .bare _ => false
  | .obj _ => true

/-- Projection of the id field of an id object (or the bare id itself). -/
def IdOrObj.idOf : IdOrObj → Ident
  | .bare i => i
  | .obj i => i

/-- A value placed into the id list of a query object: either a raw
identifier scalar or a whole id-bearing object passed through unchanged. -/
inductive QVal where
  | ident (i : Ident)
  | objVal (i : Ident)
deriving DecidableEq

/-- Embedding of a bulk list element into the query value it denotes when
passed through without reduction. -/
def IdOrObj.asQVal : IdOrObj → QVal
  | .bare i => .ident i
  | .obj i => .objVal i

/-- A JavaScript object with string keys and string values, in insertion
order. -/
abbrev StrMap := List (String × String)

/-- Property read, obj[k], returning undefined (none) when the key is
absent. -/
def lookupStr (m : StrMap) (k : String) : Option String :=
  (m.find? (fun kv => kv.1 == k)).map (fun kv => kv.2)

/-- Replacement of one entry by the written entry when its key matches. -/
def setFn (k v : String) (kv : String × String) : String × String :=
  if kv.1 == k then (k, v) else kv

/-- Property write, obj[k] = v: updates the existing entry in place when the
key is present, otherwise appends the new entry. -/
def objSet (m : StrMap) (k v : String) : StrMap :=
  if m.any (fun kv => kv.1 == k) then m.map (setFn k v)
  else m ++ [(k, v)]

/-- Object.assign(target, extra): write every entry of extra onto target, in
order, extra winning on key collision. -/
def objAssign (m : StrMap) (extra : StrMap) : StrMap :=
  extra.foldl (fun acc kv => objSet acc kv.1 kv.2) m

/-- A value of the include map: a boolean or an array of strings. -/
inductive IncludeVal where
  | bool (b : Bool)
  | strs (ss : List String)
deriving DecidableEq

/-- The meta.include mapping of relation names to include values. -/
abbrev IncludeMap := List (String × IncludeVal)

/-- The optional meta options of a request: an include map and extra filter
entries. -/
structure MetaOptions where
  includeMap : Option IncludeMap := none
  filter : Option StrMap := none
deriving DecidableEq

/-- Pagination parameters. -/
structure Pagination where
  page : Int
  perPage : Int
deriving DecidableEq

/-- The structured list query handed to the query encoder. -/
structure ListQuery where
  limit : Int
  offset : Int
  includeMap : Option IncludeMap := none
  sort : Option StrMap := none
  filter : StrMap := []
  q : Option String := none
deriving DecidableEq

/-- The getQuery helper from the source: the include part of the query,
present exactly when meta with an include map was passed. -/
def getQuery (meta : Option MetaOptions) : Option IncludeMap :=
  meta.bind (fun m => m.includeMap)

/-- The equals operator wrapping applied to every filter value. -/
def wrapEquals (v : String) : String := "equals:" ++ v

/-- JavaScript toLowerCase, modelled characterwise. -/
def toLowerCase (s : String) : String := ⟨s.data.map Char.toLower⟩

/-- Destructuring const (q, ...filters) = filter: the remaining entries
after the reserved key q is removed. -/
def dropQ (filter : StrMap) : StrMap :=
  filter.filter (fun kv => kv.1 != "q")

/-- The q entry extracted from the filter, before the truthiness test. -/
def qOf (filter : StrMap) : Option String :=
  lookupStr filter "q"

/-- The q field of the query: present only when the extracted q value is
truthy (a nonempty string). -/
def qTruthy (filter : StrMap) : Option String :=
  match qOf filter with
  | some s => if s = "" then none else some s
  | none => none

/-- The filter entries after removing q and assigning meta.filter on top
(meta entries win on key collision), as in the source. -/
def mergedFilters (filter : StrMap) (meta : Option MetaOptions) : StrMap :=
  match meta.bind (fun m => m.filter) with
  | none => dropQ filter
  | some mf => objAssign (dropQ filter) mf

/-- The reduce in the source that wraps every remaining filter value with
the equals operator, accumulating into a fresh object. -/
def wrapAll (filters : StrMap) : StrMap :=
  filters.foldl (fun acc kv => objSet acc kv.1 (wrapEquals kv.2)) []

/-- The getListQuery builder from the source. The guard on the sort branch
is Object.keys(sort), an array and hence always truthy, so the branch is
always taken: sort being undefined makes Object.keys throw, and a sort
object without an order field makes toLowerCase throw; both are modelled as
Except errors. -/
def getListQuery (pagination : Pagination) (sort : Option StrMap)
    (filter : StrMap) (meta : Option MetaOptions) : Except String ListQuery :=
  match sort with
  | none => .error "TypeError: Object.keys called on undefined"
  | some sortObj =>
    match lookupStr sortObj "order" with
    | none => .error "TypeError: toLowerCase of undefined"
    | some ord =>
      .ok { limit := pagination.perPage
            offset := (pagination.page - 1) * pagination.perPage
            includeMap := getQuery meta
            sort := some [((lookupStr sortObj "field").getD "undefined", toLowerCase ord)]
            filter := wrapAll (mergedFilters filter meta)
            q := qTruthy filter }

/-- Parameters of getManyReference. -/
structure GetManyReferenceParams where
  target : String
  id : Ident
  pagination : Pagination
  sort : Option StrMap
  filter : StrMap
  meta : Option MetaOptions := none
deriving DecidableEq

/-- The structured query that getManyReference encodes and sends: it is
built by getListQuery from the params before the target filter assignment,
and the built filter object is fresh, so the later assignment cannot reach
it. -/
def getManyReferenceSentQuery (p : GetManyReferenceParams) : Except String ListQuery :=
  getListQuery p.pagination p.sort p.filter p.meta

/-- The caller-visible params object after getManyReference returns: when
the target is truthy, the filter object has been mutated in place with
params.filter(target) = equals:id. -/
def getManyReferenceParamsAfter (p : GetManyReferenceParams) : GetManyReferenceParams :=
  if p.target = "" then p
  else { p with filter := objSet p.filter p.target (wrapEquals p.id.toStr) }

/-- A field-level validation failure from an error payload. -/
structure ValidationError where
  constraint : String
  message : String
  property : String
deriving DecidableEq

/-- The errors thrown by the operations: the InvalidResponseError class of
the provider, the plain Error thrown by delete, and a JSON decode failure
propagating from res.json(). -/
inductive RaisedError where
  | invalidResponseError (status : Int) (errors : Option (List ValidationError))
  | genericError (message : String)
  | decodeError (message : String)
deriving DecidableEq

/-- Discriminates the InvalidResponseError kind. -/
def RaisedError.isInvalidResp : RaisedError → Bool
  | .invalidResponseError _ _ => true
  | _ => false

/-- The own property names of each raised error instance. InvalidResponseError
assigns message (via the Error super call) and errors; the plain Error and a
decode failure carry only message. -/
def RaisedError.ownKeys : RaisedError → List String
  | .invalidResponseError _ _ => ["message", "errors"]
  | .genericError _ => ["message"]
  | .decodeError _ => ["message"]

/-- The own property names of a DataProviderError instance from error.ts:
message, errors, and the structural marker field. -/
def DataProviderErrorOwnKeys : List String :=
  ["message", "errors", "_dataprovidererror"]

/-- A JavaScript object viewed only through its own property names, as
needed by the structural error check. -/
structure JsObject where
  ownKeys : List String
deriving DecidableEq

/-- The isDataProviderError structural check from error.ts: the argument is
truthy, is an object, and has the marker property. -/
def isDataProviderError (e : Option JsObject) : Bool :=
  match e with
  | none => false
  | some o => o.ownKeys.contains "_dataprovidererror"

/-- Decoded JSON body of a response: an optional errors array plus the rest
of the payload. -/
structure JsonBody where
  errors : Option (List ValidationError) := none
  payload : String := ""
deriving DecidableEq

/-- An HTTP response as the core sees it: a status and the outcome of the
asynchronous JSON decoding of the body. -/
structure Response where
  status : Int
  jsonBody : Except String JsonBody

/-- The getJsonResponse interpreter from the source: res.json() is awaited
first, so a decode failure propagates before the status is inspected; then
status at least 400 raises InvalidResponseError with data.errors. -/
def getJsonResponse (res : Response) : Except RaisedError JsonBody :=
  match res.jsonBody with
  | .error msg => .error (.decodeError msg)
  | .ok data =>
    if 400 ≤ res.status then .error (.invalidResponseError res.status data.errors)
    else .ok data

/-- The delete operation reduced to its response handling: status at least
400 throws a plain Error whose message is the status rendered as a string;
otherwise the empty-object envelope is returned. The body is never read. -/
def deleteOp (res : Response) : Except RaisedError StrMap :=
  if 400 ≤ res.status then .error (.genericError (toString res.status))
  else .ok []

/-- The deleteMany operation reduced to its response handling: status at
least 400 throws InvalidResponseError with no errors array; otherwise the
input ids are echoed. The body is never read. -/
def deleteManyOp (ids : List Ident) (res : Response) : Except RaisedError (List Ident) :=
  if 400 ≤ res.status then .error (.invalidResponseError res.status none)
  else .ok ids

/-- The id list placed in the query by getMany: params.ids defaulted to the
empty list, each element reduced to its id field when it is an id object. -/
def getManyQueryId (ids : Option (List IdOrObj)) : List QVal :=
  (ids.getD []).map (fun item =>
    if isIdObject item then QVal.ident item.idOf else item.asQVal)

/-- The id list placed in the query by updateMany: params.ids passed through
unchanged. -/
def updateManyQueryId (ids : List IdOrObj) : List QVal :=
  ids.map IdOrObj.asQVal

/-- The id list placed in the query by deleteMany: params.ids passed through
unchanged. -/
def deleteManyQueryId (ids : List IdOrObj) : List QVal :=
  ids.map IdOrObj.asQVal

/-! Helper lemmas about the object model. -/

theorem lookupStr_cons (hd : String × String) (tl : StrMap) (k : String) :
    lookupStr (hd :: tl) k = if hd.1 == k then some hd.2 else lookupStr tl k := by
  by_cases h : hd.1 == k <;>
    simp [lookupStr, List.find?_cons, h]

theorem objSet_of_not_mem (m : StrMap) (k v : String)
    (h : m.any (fun kv => kv.1 == k) = false) :
    objSet m k v = m ++ [(k, v)] := by
  simp [objSet, h]

theorem lookupStr_append_self (m : StrMap) (k v : String)
    (h : m.any (fun kv => kv.1 == k) = false) :
    lookupStr (m ++ [(k, v)]) k = some v := by
  induction m with
  | nil => simp [lookupStr, List.find?]
  | cons hd tl ih =>
    simp only [List.any_cons, Bool.or_eq_false_iff] at h
    rw [List.cons_append, lookupStr_cons, if_neg (by simp [h.1]), ih h.2]

theorem lookupStr_append_ne (m : StrMap) (k v k' : String) (h : k' ≠ k) :
    lookupStr (m ++ [(k, v)]) k' = lookupStr m k' := by
  induction m with
  | nil =>
    rw [List.nil_append, lookupStr_cons, if_neg (by simp [Ne.symm h])]
  | cons hd tl ih =>
    rw [List.cons_append, lookupStr_cons, lookupStr_cons, ih]

theorem setFn_of_eq (k v : String) (kv : String × String) (h : (kv.1 == k) = true) :
    setFn k v kv = (k, v) := by
  rw [setFn, if_pos h]

theorem setFn_of_ne (k v : String) (kv : String × String) (h : (kv.1 == k) = false) :
    setFn k v kv = kv := by
  rw [setFn, if_neg (by simp [h])]

theorem lookupStr_mapSet_self (m : StrMap) (k v : String)
    (h : m.any (fun kv => kv.1 == k) = true) :
    lookupStr (m.map (setFn k v)) k = some v := by
  induction m with
  | nil => simp at h
  | cons hd tl ih =>
    by_cases hh : (hd.1 == k) = true
    · rw [List.map_cons, setFn_of_eq k v hd hh, lookupStr_cons,
        if_pos (by simp : ((k, v).1 == k) = true)]
    · have h' : tl.any (fun kv => kv.1 == k) = true := by
        simpa [List.any_cons, hh] using h
      rw [List.map_cons, setFn_of_ne k v hd (by simpa using hh), lookupStr_cons,
        if_neg hh, ih h']

theorem lookupStr_mapSet_ne (m : StrMap) (k v k' : String) (h : k' ≠ k) :
    lookupStr (m.map (setFn k v)) k' = lookupStr m k' := by
  induction m with
  | nil => rfl
  | cons hd tl ih =>
    by_cases hh : (hd.1 == k) = true
    · have he : hd.1 = k := by simpa using hh
      rw [List.map_cons, setFn_of_eq k v hd hh, lookupStr_cons, lookupStr_cons,
        if_neg (by simp [Ne.symm h] : ¬ ((k, v).1 == k') = true),
        if_neg (by simp [he, Ne.symm h] : ¬ (hd.1 == k') = true), ih]
    · rw [List.map_cons, setFn_of_ne k v hd (by simpa using hh), lookupStr_cons,
        lookupStr_cons, ih]

theorem lookupStr_objSet_self (m : StrMap) (k v : String) :
    lookupStr (objSet m k v) k = some v := by
  by_cases h : m.any (fun kv => kv.1 == k) = true
  · rw [objSet, if_pos h]
    exact lookupStr_mapSet_self m k v h
  · rw [objSet_of_not_mem m k v (Bool.eq_false_iff.mpr h)]
    exact lookupStr_append_self m k v (Bool.eq_false_iff.mpr h)

theorem lookupStr_objSet_ne (m : StrMap) (k v k' : String) (h : k' ≠ k) :
    lookupStr (objSet m k v) k' = lookupStr m k' := by
  by_cases hm : m.any (fun kv => kv.1 == k) = true
  · rw [objSet, if_pos hm]
    exact lookupStr_mapSet_ne m k v k' h
  · rw [objSet_of_not_mem m k v (Bool.eq_false_iff.mpr hm)]
    exact lookupStr_append_ne m k v k' h

theorem foldl_objSet_fresh (l : List (String × String)) :
    ∀ acc : StrMap, (l.map Prod.fst).Nodup →
      (∀ k ∈ l.map Prod.fst, acc.any (fun kv => kv.1 == k) = false) →
      l.foldl (fun a kv => objSet a kv.1 (wrapEquals kv.2)) acc
        = acc ++ l.map (fun kv => (kv.1, wrapEquals kv.2)) := by
  induction l with
  | nil => intro acc _ _; simp
  | cons hd tl ih =>
    intro acc hnd hdisj
    have hfresh : acc.any (fun kv => kv.1 == hd.1) = false :=
      hdisj hd.1 (by simp)
    rw [List.foldl_cons, objSet_of_not_mem _ _ _ hfresh]
    have hnd' : (tl.map Prod.fst).Nodup := (List.nodup_cons.mp (by simpa using hnd)).2
    have hhd : hd.1 ∉ tl.map Prod.fst := (List.nodup_cons.mp (by simpa using hnd)).1
    rw [ih (acc ++ [(hd.1, wrapEquals hd.2)]) hnd' ?_]
    · simp
    · intro k hk
      have hne : ¬ (hd.1 == k) = true := by
        simp only [beq_iff_eq]
        intro e
        exact hhd (e ▸ hk)
      simp [List.any_append, hdisj k (by simp [hk]), hne]

theorem wrapAll_eq_map (l : StrMap) (h : (l.map Prod.fst).Nodup) :
    wrapAll l = l.map (fun kv => (kv.1, wrapEquals kv.2)) := by
  simpa using foldl_objSet_fresh l [] h (fun k _ => rfl)

theorem getListQuery_eq_ok (pagination : Pagination) (f o : String)
    (filter : StrMap) (meta : Option MetaOptions) :
    getListQuery pagination (some [("field", f), ("order", o)]) filter meta
      = .ok { limit := pagination.perPage
              offset := (pagination.page - 1) * pagination.perPage
              includeMap := getQuery meta
              sort := some [(f, toLowerCase o)]
              filter := wrapAll (mergedFilters filter meta)
              q := qTruthy filter } := by
  have h1 : lookupStr [("field", f), ("order", o)] "order" = some o := rfl
  have h2 : lookupStr [("field", f), ("order", o)] "field" = some f := rfl
  simp [getListQuery, h1, h2]

/-! Concrete parameter values used by the settled claims. -/

/-- Concrete getManyReference parameters exercising the target filter
injection with an empty caller filter. -/
def c1Params : GetManyReferenceParams :=
  { target := "author", id := .num 5, pagination := ⟨1, 10⟩,
    sort := some [("field", "f"), ("order", "ASC")], filter := [], meta := none }

/-- Concrete getManyReference parameters with one preexisting filter
entry. -/
def c10Params : GetManyReferenceParams :=
  { target := "author", id := .num 5, pagination := ⟨1, 10⟩,
    sort := some [("field", "f"), ("order", "ASC")], filter := [("x", "1")], meta := none }

/-! Theorems settling the claims. -/

/-- Claim C1, settled against the code: getManyReference builds the list
query from the params before assigning the target filter, and the built
filter object is fresh, so the query sent for c1Params has an empty filter
map without the entry mapping author to equals:5, even though the params
filter was mutated with exactly that entry. -/
theorem claim_C1_target_filter_not_sent :
    getManyReferenceSentQuery c1Params
      = .ok { limit := 10, offset := 0, includeMap := none,
              sort := some [("f", "asc")], filter := [], q := none }
    ∧ lookupStr (getManyReferenceParamsAfter c1Params).filter "author" = some "equals:5" :=
  ⟨rfl, rfl⟩

/-- Claim C2, settled against the code: the interpreter awaits res.json()
before inspecting the status, so at status 400 with a body that fails to
decode, the decode failure propagates and no classified error carrying the
status is raised. -/
theorem claim_C2_counterexample :
    getJsonResponse ⟨400, .error "SyntaxError: Unexpected end of JSON input"⟩
      = .error (.decodeError "SyntaxError: Unexpected end of JSON input")
    ∧ (RaisedError.decodeError "SyntaxError: Unexpected end of JSON input").isInvalidResp
        = false :=
  ⟨rfl, rfl⟩

/-- Claim C2 as amended: for status at least 400, when the body decodes the
interpreter raises the classified error carrying the status and the
optional errors array, an absent errors field yielding an error with no
errors array; when JSON decoding fails, the decode failure propagates
unchanged instead of a classified error. -/
theorem claim_C2_amended (status : Int) (body : JsonBody) (msg : String)
    (h : 400 ≤ status) :
    getJsonResponse ⟨status, .ok body⟩
      = .error (.invalidResponseError status body.errors)
    ∧ getJsonResponse ⟨status, .error msg⟩ = .error (.decodeError msg) := by
  constructor
  · simp [getJsonResponse, h]
  · rfl

/-- Witness for the amended claim C2 at status 400 with a body carrying no
errors array and with a body that fails to decode. -/
theorem claim_C2_amended_witness :
    getJsonResponse ⟨400, .ok { errors := none, payload := "" }⟩
      = .error (.invalidResponseError 400 none)
    ∧ getJsonResponse ⟨400, .error "bad json"⟩ = .error (.decodeError "bad json") :=
  claim_C2_amended 400 { errors := none, payload := "" } "bad json" (by decide)

/-- Claim C3, settled against the code: at status 404 the delete operation
throws a plain Error whose message is the status rendered as a string, not
the classified InvalidResponseError kind thrown by deleteMany, so the two
error kinds differ; both are raised without a decodable JSON body. -/
theorem claim_C3_counterexample :
    deleteOp ⟨404, .error "empty body"⟩ = .error (.genericError "404")
    ∧ (RaisedError.genericError "404").isInvalidResp = false
    ∧ deleteManyOp [Ident.num 1] ⟨404, .error "empty body"⟩
        = .error (.invalidResponseError 404 none)
    ∧ (RaisedError.invalidResponseError 404 none).isInvalidResp = true :=
  ⟨rfl, rfl, rfl, rfl⟩

/-- Claim C3 as amended: for every response with status at least 400,
delete raises a plain error carrying the status only inside its rendered
message, while deleteMany raises the classified error carrying the numeric
status and no errors array; neither reads the JSON body. -/
theorem claim_C3_amended (res : Response) (ids : List Ident) (h : 400 ≤ res.status) :
    deleteOp res = .error (.genericError (toString res.status))
    ∧ deleteManyOp ids res = .error (.invalidResponseError res.status none) := by
  constructor
  · simp [deleteOp, h]
  · simp [deleteManyOp, h]

/-- Witness for the amended claim C3 at status 404 with an undecodable
body. -/
theorem claim_C3_amended_witness :
    deleteOp ⟨404, .error "empty body"⟩ = .error (.genericError (toString (404 : Int)))
    ∧ deleteManyOp [Ident.num 1, Ident.num 2] ⟨404, .error "empty body"⟩
        = .error (.invalidResponseError 404 none) :=
  claim_C3_amended ⟨404, .error "empty body"⟩ [Ident.num 1, Ident.num 2] (by decide)

/-- Claim C4, settled against the code: with a sort object carrying field
and order, the built sort is the single lowercased entry, as claimed; but
the guard on the sort branch is Object.keys(sort), an always-truthy array,
so a build with an empty or missing sort specification does not omit the
sort key: it throws a TypeError instead. -/
theorem claim_C4_sort_always_built :
    getListQuery ⟨1, 25⟩ (some [("field", "somefield"), ("order", "ASC")]) [] none
      = .ok { limit := 25, offset := 0, includeMap := none,
              sort := some [("somefield", "asc")], filter := [], q := none }
    ∧ getListQuery ⟨1, 25⟩ (some []) [] none
      = .error "TypeError: toLowerCase of undefined"
    ∧ getListQuery ⟨1, 25⟩ none [] none
      = .error "TypeError: Object.keys called on undefined" :=
  ⟨rfl, rfl, rfl⟩

/-- Claim C5, settled against the code: updateMany passes its id list into
the query unchanged, so an id object is not reduced to its identifier field
there, while getMany does reduce it. -/
theorem claim_C5_counterexample :
    updateManyQueryId [IdOrObj.obj (Ident.num 1)] = [QVal.objVal (Ident.num 1)]
    ∧ updateManyQueryId [IdOrObj.obj (Ident.num 1)] ≠ [QVal.ident (Ident.num 1)]
    ∧ getManyQueryId (some [IdOrObj.obj (Ident.num 1)]) = [QVal.ident (Ident.num 1)] := by
  refine ⟨rfl, ?_, rfl⟩
  decide

/-- Claim C5 as amended: getMany reduces every id object to its identifier
field, yielding the raw identifiers in order; updateMany and deleteMany
place the supplied id list in the query unchanged, which coincides with the
raw identifiers exactly when the list consists of bare identifiers. -/
theorem claim_C5_amended (ids : List IdOrObj) (bs : List Ident) :
    getManyQueryId (some ids) = ids.map (fun i => QVal.ident i.idOf)
    ∧ updateManyQueryId (bs.map IdOrObj.bare) = bs.map QVal.ident
    ∧ deleteManyQueryId (bs.map IdOrObj.bare) = bs.map QVal.ident := by
  refine ⟨?_, ?_, ?_⟩
  · simp only [getManyQueryId, Option.getD_some]
    apply List.map_congr_left
    intro a _
    cases a <;> rfl
  · simp only [updateManyQueryId, List.map_map]
    apply List.map_congr_left
    intro a _
    rfl
  · simp only [deleteManyQueryId, List.map_map]
    apply List.map_congr_left
    intro a _
    rfl

/-- Claim C6: for all pagination inputs with page and perPage at least one,
the built list query has offset equal to (page - 1) * perPage and limit
equal to perPage. -/
theorem claim_C6_pagination (page perPage : Int) (f o : String)
    (filterL : StrMap) (meta : Option MetaOptions)
    (h1 : 1 ≤ page) (h2 : 1 ≤ perPage) :
    (getListQuery ⟨page, perPage⟩ (some [("field", f), ("order", o)]) filterL meta).map
        (fun qq => (qq.limit, qq.offset))
      = .ok (perPage, (page - 1) * perPage) := by
  rw [getListQuery_eq_ok]
  rfl

/-- Witness for claim C6 at page 2 and perPage 25. -/
theorem claim_C6_pagination_witness :
    (getListQuery ⟨2, 25⟩ (some [("field", "somefield"), ("order", "ASC")]) [] none).map
        (fun qq => (qq.limit, qq.offset))
      = .ok (25, (2 - 1) * 25) :=
  claim_C6_pagination 2 25 "somefield" "ASC" [] none (by decide) (by decide)

/-- Claim C7: every filter entry other than the reserved key q, including
entries with an empty-string value, appears in the built query filter with
its value wrapped with the equals operator, in insertion order, and the key
q never appears inside that wrapped filter map; stated for calls without
meta filter entries, the filter keys being distinct as in any object. -/
theorem claim_C7_filter_wrapped (page perPage : Int) (f o : String)
    (filterL : StrMap) (meta : Option MetaOptions)
    (hmeta : meta.bind (fun m => m.filter) = none)
    (hnd : (filterL.map Prod.fst).Nodup) :
    (getListQuery ⟨page, perPage⟩ (some [("field", f), ("order", o)]) filterL meta).map
        (fun qq => qq.filter)
      = .ok ((filterL.filter (fun kv => kv.1 != "q")).map
          (fun kv => (kv.1, wrapEquals kv.2)))
    ∧ "q" ∉ ((filterL.filter (fun kv => kv.1 != "q")).map
        (fun kv => (kv.1, wrapEquals kv.2))).map Prod.fst := by
  constructor
  · rw [getListQuery_eq_ok]
    have hm : mergedFilters filterL meta = dropQ filterL := by
      rw [mergedFilters, hmeta]
    have hnd' : ((dropQ filterL).map Prod.fst).Nodup :=
      List.Nodup.sublist (List.Sublist.map Prod.fst (List.filter_sublist filterL)) hnd
    show Except.ok (wrapAll (mergedFilters filterL meta)) = _
    rw [hm, wrapAll_eq_map _ hnd']
    rfl
  · intro hmem
    rw [List.map_map] at hmem
    obtain ⟨kv, hkv, hq⟩ := List.mem_map.mp hmem
    have hne := (List.mem_filter.mp hkv).2
    rw [bne_iff_ne] at hne
    exact hne (by simpa using hq)

/-- Witness for claim C7 at a filter with an empty-string value and a q
entry. -/
theorem claim_C7_filter_wrapped_witness :
    (getListQuery ⟨1, 25⟩ (some [("field", "f"), ("order", "ASC")])
        [("a", ""), ("q", "xx"), ("b", "1")] none).map (fun qq => qq.filter)
      = .ok (([("a", ""), ("q", "xx"), ("b", "1")].filter (fun kv => kv.1 != "q")).map
          (fun kv => (kv.1, wrapEquals kv.2)))
    ∧ "q" ∉ (([("a", ""), ("q", "xx"), ("b", "1")].filter (fun kv => kv.1 != "q")).map
        (fun kv => (kv.1, wrapEquals kv.2))).map Prod.fst :=
  claim_C7_filter_wrapped 1 25 "f" "ASC" [("a", ""), ("q", "xx"), ("b", "1")] none rfl
    (by decide)

/-- Claim C8: for every deleteMany call whose response status is below 400,
the result echoes exactly the input identifiers, and the result does not
depend on the response body, which is never read. -/
theorem claim_C8_deleteMany_echo (ids : List Ident) (s : Int)
    (b b' : Except String JsonBody) (h : s < 400) :
    deleteManyOp ids ⟨s, b⟩ = .ok ids
    ∧ deleteManyOp ids ⟨s, b⟩ = deleteManyOp ids ⟨s, b'⟩ := by
  constructor
  · simp [deleteManyOp, not_le.mpr h]
  · rfl

/-- Witness for claim C8 at status 204 echoing the ids 1 and 2, with two
different bodies. -/
theorem claim_C8_deleteMany_echo_witness :
    deleteManyOp [Ident.num 1, Ident.num 2] ⟨204, .error "no body"⟩
        = .ok [Ident.num 1, Ident.num 2]
    ∧ deleteManyOp [Ident.num 1, Ident.num 2] ⟨204, .error "no body"⟩
        = deleteManyOp [Ident.num 1, Ident.num 2]
            ⟨204, .ok { errors := none, payload := "" }⟩ :=
  claim_C8_deleteMany_echo [Ident.num 1, Ident.num 2] 204 (.error "no body")
    (.ok { errors := none, payload := "" }) (by decide)

/-- Claim C9, settled against the code: the classified error actually
raised by the operations is InvalidResponseError, whose instances carry
only the message and errors properties, so the structural marker check
rejects them; at status 400 deleteMany raises exactly such an error. -/
theorem claim_C9_counterexample :
    deleteManyOp [Ident.num 1] ⟨400, .error "empty"⟩
      = .error (.invalidResponseError 400 none)
    ∧ isDataProviderError
        (some ⟨(RaisedError.invalidResponseError 400 none).ownKeys⟩) = false :=
  ⟨rfl, rfl⟩

/-- Claim C9 as amended: the DataProviderError class of error.ts carries
the structural marker and isDataProviderError recognizes any object with
that own property, without class identity; but none of the errors raised by
the operations carries the marker, so they all fail the structural check. -/
theorem claim_C9_amended :
    isDataProviderError (some ⟨DataProviderErrorOwnKeys⟩) = true
    ∧ (∀ e : RaisedError, isDataProviderError (some ⟨e.ownKeys⟩) = false)
    ∧ isDataProviderError none = false := by
  refine ⟨rfl, ?_, rfl⟩
  intro e
  cases e <;> rfl

/-- Claim C10: with a truthy target, getManyReference assigns the entry
mapping the target to equals:id onto the caller-supplied filter object in
place, so the caller observes that entry afterwards; every other filter key
and every other field of the params is unchanged. -/
theorem claim_C10_params_mutated (p : GetManyReferenceParams) (h : p.target ≠ "") :
    lookupStr (getManyReferenceParamsAfter p).filter p.target
        = some (wrapEquals p.id.toStr)
    ∧ (∀ k, k ≠ p.target →
        lookupStr (getManyReferenceParamsAfter p).filter k = lookupStr p.filter k)
    ∧ (getManyReferenceParamsAfter p).target = p.target
    ∧ (getManyReferenceParamsAfter p).id = p.id
    ∧ (getManyReferenceParamsAfter p).pagination = p.pagination
    ∧ (getManyReferenceParamsAfter p).sort = p.sort
    ∧ (getManyReferenceParamsAfter p).meta = p.meta := by
  rw [getManyReferenceParamsAfter, if_neg h]
  exact ⟨lookupStr_objSet_self _ _ _,
    fun k hk => lookupStr_objSet_ne _ _ _ _ hk, rfl, rfl, rfl, rfl, rfl⟩

/-- Witness for claim C10 at concrete params with one preexisting filter
entry. -/
theorem claim_C10_params_mutated_witness :
    lookupStr (getManyReferenceParamsAfter c10Params).filter "author"
        = some (wrapEquals (Ident.num 5).toStr)
    ∧ lookupStr (getManyReferenceParamsAfter c10Params).filter "x"
        = lookupStr c10Params.filter "x"
    ∧ (getManyReferenceParamsAfter c10Params).pagination = c10Params.pagination :=
  ⟨(claim_C10_params_mutated c10Params (by decide)).1,
   (claim_C10_params_mutated c10Params (by decide)).2.1 "x" (by decide),
   (claim_C10_params_mutated c10Params (by decide)).2.2.2.2.1⟩

end RaDataProvider
